import Mathlib

/-!
Shallow embedding of the Crane3dPlugin crane-model core
(`Source/CraneModel/Public/Model.h` and `KinematicComponent.h`).

C++ `double` values are embedded as exact rationals `ℚ`; all arithmetic
is exact, so "within floating tolerance" statements are settled as exact
equalities of the embedded semantics.

The repository snapshot contains only the two public headers; the method
bodies (`Model.cpp` / `KinematicComponent.cpp`) are not present.  Inline
functions and operators defined in the headers are embedded directly from
the source; method bodies that are missing are modelled from the spec and
carry a doc comment starting with `Modelled from the spec:`.
-/

namespace crane3d

/-- `ModelType` enum from Model.h lines 10-25. -/
inductive ModelType where
  | Linear
  | NonLinearConstLine
  | NonLinearComplete
  | NonLinearOriginal
deriving DecidableEq

/-- `template<class T> struct Unit` from Model.h lines 30-45: a
dimensional scalar wrapping one floating value, embedded as `ℚ`. -/
structure Unit (T : Type) where
  Value : ℚ

instance {T : Type} : DecidableEq (Unit T) := fun a b =>
  decidable_of_iff (a.Value = b.Value) (by cases a; cases b; simp)

/-- Phantom tag `struct _Force {};` (Model.h line 46). -/
structure FForceTag where
/-- Phantom tag `struct _Mass {};` (Model.h line 47). -/
structure MMassTag where
/-- Phantom tag `struct _Accel {};` (Model.h line 48). -/
structure AAccelTag where

/-- `using Force = Unit<_Force>;` (Model.h line 49). -/
abbrev Force := Unit FForceTag
/-- `using Mass = Unit<_Mass>;` (Model.h line 50). -/
abbrev Mass := Unit MMassTag
/-- `using Accel = Unit<_Accel>;` (Model.h line 51). -/
abbrev Accel := Unit AAccelTag

/-- `static const Unit Zero;` (Model.h line 33). -/
def Unit.Zero {T : Type} : Unit T := ⟨0⟩

/-- `Unit operator+(Unit b)` (Model.h line 34). -/
instance {T : Type} : Add (Unit T) := ⟨fun a b => ⟨a.Value + b.Value⟩⟩
/-- `Unit operator-(Unit b)` (Model.h line 35). -/
instance {T : Type} : Sub (Unit T) := ⟨fun a b => ⟨a.Value - b.Value⟩⟩
/-- `Unit operator-()` (Model.h line 44). -/
instance {T : Type} : Neg (Unit T) := ⟨fun a => ⟨-a.Value⟩⟩
/-- `Unit operator*(double x)` (Model.h line 39). -/
instance {T : Type} : HMul (Unit T) ℚ (Unit T) := ⟨fun a x => ⟨a.Value * x⟩⟩
/-- `Unit operator/(double x)` (Model.h line 40). -/
instance {T : Type} : HDiv (Unit T) ℚ (Unit T) := ⟨fun a x => ⟨a.Value / x⟩⟩
/-- `operator*(double x, Unit u)` (Model.h line 57). -/
instance {T : Type} : HMul ℚ (Unit T) (Unit T) := ⟨fun x u => ⟨x * u.Value⟩⟩

/-- `inline Force operator*(Mass m, Accel a) { return { m.Value * a.Value }; }`
(Model.h line 61). -/
instance : HMul Mass Accel Force := ⟨fun m a => ⟨m.Value * a.Value⟩⟩
/-- `inline Force operator*(Accel a, Mass m) { return { m.Value * a.Value }; }`
(Model.h line 62). -/
instance : HMul Accel Mass Force := ⟨fun a m => ⟨m.Value * a.Value⟩⟩
/-- `inline Accel operator/(Force F, Mass m) { return { F.Value / m.Value }; }`
(Model.h line 64). -/
instance : HDiv Force Mass Accel := ⟨fun F m => ⟨F.Value / m.Value⟩⟩

/-- `inline double sign(double x) { return x > 0 ? 1.0 : (x < 0 ? -1.0 : 0.0); }`
(Model.h line 53). -/
def sign (x : ℚ) : ℚ := if x > 0 then 1 else if x < 0 then -1 else 0

/-- `template<class T> inline double sign(Unit<T> x) { return sign(x.Value); }`
(Model.h line 54). -/
def Unit.sign {T : Type} (x : Unit T) : ℚ := crane3d.sign x.Value

/-- `inline double integrate_velocity(double v0, Accel a, double Δt)`
(Model.h lines 78-81): `v = v0 + a*Δt`. -/
def integrate_velocity (v0 : ℚ) (a : Accel) (Δt : ℚ) : ℚ :=
  v0 + a.Value * Δt

/-- `inline double integrate_pos(double x0, double v, Accel a, double Δt)`
(Model.h lines 86-91), Velocity Verlet: `x = x0 + (oldV + newV)*Δt*0.5`. -/
def integrate_pos (x0 v : ℚ) (a : Accel) (Δt : ℚ) : ℚ :=
  x0 + (v + (v + a.Value * Δt)) * Δt * (1/2)

/-- `inline double average_velocity(double x1, double x2, double Δt)`
(Model.h lines 94-97). -/
def average_velocity (x1 x2 Δt : ℚ) : ℚ := (x2 - x1) / Δt

/-- `struct Component` from KinematicComponent.h lines 13-59, with the member
initializers of the header.  The field `Mass` keeps its source name; the
source field `Const` is a `bool`. -/
structure Component where
  Mass : crane3d.Mass
  Pos : ℚ
  LimitMin : ℚ
  LimitMax : ℚ
  VelMax : ℚ
  AccMax : ℚ
  Vel : ℚ
  Acc : Accel
  Applied : Force
  SFriction : Force
  KFriction : Force
  Fnet : Force
  NetAcc : Accel
  FrictionDir : ℚ
  Const : Bool
  CoeffStatic : ℚ
  CoeffKinetic : ℚ
deriving DecidableEq

/-- Default-constructed `Component` (member initializers of
KinematicComponent.h lines 15-39: mass 1 kg, coefficients 0.8 / 0.7,
everything else zero, `FrictionDir = 1.0`, `Const = false`). -/
def Component.mk0 : Component :=
  ⟨⟨1⟩, 0, 0, 0, 0, 0, 0, ⟨0⟩, ⟨0⟩, ⟨0⟩, ⟨0⟩, ⟨0⟩, ⟨0⟩, 1, false, 8/10, 7/10⟩

/-- `Component(double pos, double limitMin, double limitMax)`
(KinematicComponent.h lines 42-43). -/
def Component.mkPos (pos limitMin limitMax : ℚ) : Component :=
  { Component.mk0 with Pos := pos, LimitMin := limitMin, LimitMax := limitMax }

/-- `void SetLimits(double min, double max)` (KinematicComponent.h line 45). -/
def Component.SetLimits (c : Component) (minv maxv : ℚ) : Component :=
  { c with LimitMin := minv, LimitMax := maxv }

/-- Modelled from the spec: body of `Component::Reset` is in the missing
KinematicComponent.cpp.  Header comment (line 47) and spec section 4.2:
"Resets all dynamic variables: Pos, Vel, Acc, Fnet, NetAcc"; configuration
(mass, limits, friction coefficients) is preserved. -/
def Component.Reset (c : Component) : Component :=
  { c with Pos := 0, Vel := 0, Acc := ⟨0⟩, Fnet := ⟨0⟩, NetAcc := ⟨0⟩ }

/-- Clamp `x` to magnitude `limit` when `limit` is non-zero (spec 4.2:
"applying VelMax/AccMax clamps if non-zero", 0 = disabled). -/
def clampMag (limit x : ℚ) : ℚ :=
  if limit = 0 then x else max (-limit) (min limit x)

/-- Modelled from the spec: body of `Component::Update` is in the missing
KinematicComponent.cpp.  Spec section 4.2: if `Const` is set, no-op;
otherwise Velocity Verlet: new velocity = old velocity + newAcceleration×dt,
new position = old position + (old velocity + new velocity)×dt×0.5, storing
both with the VelMax/AccMax clamps applied when those limits are non-zero. -/
def Component.Update (c : Component) (new_acc : Accel) (dt : ℚ) : Component :=
  if c.Const then c
  else
    { c with
      Acc := ⟨clampMag c.AccMax new_acc.Value⟩
      Vel := clampMag c.VelMax
        (integrate_velocity c.Vel ⟨clampMag c.AccMax new_acc.Value⟩ dt)
      Pos := c.Pos +
        (c.Vel + clampMag c.VelMax
          (integrate_velocity c.Vel ⟨clampMag c.AccMax new_acc.Value⟩ dt))
        * dt * (1/2) }

/-- Modelled from the spec: body of `Component::ApplyForceNonLinear` is in
the missing KinematicComponent.cpp.  Spec section 4.2: stiction-aware path;
if the body is at rest and the magnitude of the applied force does not
exceed the static friction threshold `Ts`, net force and net acceleration
are zero; otherwise net force = applied − sign(velocity or applied)×kinetic
friction term `T`, and NetAcc = Fnet/Mass. -/
def Component.ApplyForceNonLinear (c : Component) (applied : Force)
    (_g : Accel) (T Ts : ℚ) : Component :=
  if c.Vel = 0 ∧ |applied.Value| ≤ Ts then
    { c with Applied := applied, Fnet := ⟨0⟩, NetAcc := ⟨0⟩ }
  else
    let dir : ℚ := if c.Vel ≠ 0 then sign c.Vel else sign applied.Value
    let fnet : Force := ⟨applied.Value - dir * T⟩
    { c with Applied := applied, Fnet := fnet, NetAcc := fnet / c.Mass }

/-- Modelled from the spec: body of `Component::ClampForceByPosLimits` is in
the missing KinematicComponent.cpp.  Spec section 4.2: returns a force of
zero magnitude when Pos is already at LimitMin and the force direction is
further negative, or at LimitMax and the force direction is further
positive; otherwise returns the input unchanged. -/
def Component.ClampForceByPosLimits (c : Component) (force : Force) : Force :=
  if c.Pos = c.LimitMin ∧ force.Value < 0 then ⟨0⟩
  else if c.Pos = c.LimitMax ∧ force.Value > 0 then ⟨0⟩
  else force

/-- `struct ModelState` (Model.h lines 114-129): the output snapshot. -/
structure ModelState where
  Alfa : ℚ
  Beta : ℚ
  RailOffset : ℚ
  CartOffset : ℚ
  LiftLine : ℚ
  PayloadX : ℚ
  PayloadY : ℚ
  PayloadZ : ℚ
deriving DecidableEq

/-- Configuration fields of `class Model` (Model.h lines 141-161): model
variant, masses, gravity, friction constants and the six travel limits.
The source field `Type` is named `MType` here (`Type` is reserved in Lean). -/
structure ModelConfig where
  MType : ModelType
  Mpayload : Mass
  Mcart : Mass
  Mrail : Mass
  G : ℚ
  g : Accel
  RailFriction : ℚ
  CartFriction : ℚ
  WindingFriction : ℚ
  RailLimitMin : ℚ
  RailLimitMax : ℚ
  CartLimitMin : ℚ
  CartLimitMax : ℚ
  LineLimitMin : ℚ
  LineLimitMax : ℚ
deriving DecidableEq

/-- The dynamic degrees of freedom of `class Model` (Model.h lines 164-180):
positions X, Y, R, angles Alfa, Beta, the linear-model deviations
Δα, Δβ, and all velocities. -/
structure DynState where
  X : ℚ
  Y : ℚ
  R : ℚ
  Alfa : ℚ
  Beta : ℚ
  Δα : ℚ
  Δα_vel : ℚ
  Δβ : ℚ
  Δβ_vel : ℚ
  X_vel : ℚ
  Y_vel : ℚ
  R_vel : ℚ
  Alfa_vel : ℚ
  Beta_vel : ℚ
deriving DecidableEq

/-- `class Model` (Model.h lines 135-261): configuration, dynamic state and
the fixed-step bookkeeping fields `SimulationTime` / `SimulationCounter`
(Model.h lines 202-204). -/
structure Model where
  cfg : ModelConfig
  st : DynState
  SimulationTime : ℚ
  SimulationCounter : ℤ
deriving DecidableEq

/-- Member-initializer defaults of `class Model` (Model.h lines 142-161):
Linear variant, payload 1.000 kg, cart 1.155 kg, rail 2.200 kg, g = 9.81,
frictions 100 / 82 / 75, rail limits ±0.3, cart limits ±0.35,
line limits 0.05 … 0.90. -/
def defaultConfig : ModelConfig :=
  { MType := ModelType.Linear
    Mpayload := ⟨1⟩
    Mcart := ⟨1155/1000⟩
    Mrail := ⟨2200/1000⟩
    G := 981/100
    g := ⟨981/100⟩
    RailFriction := 100
    CartFriction := 82
    WindingFriction := 75
    RailLimitMin := -3/10
    RailLimitMax := 3/10
    CartLimitMin := -35/100
    CartLimitMax := 35/100
    LineLimitMin := 5/100
    LineLimitMax := 90/100 }

/-- Member-initializer defaults of the dynamic state (Model.h lines
164-180): everything zero except the lift-line length `R = 0.5`. -/
def initialDynState : DynState :=
  { X := 0, Y := 0, R := 1/2, Alfa := 0, Beta := 0
    Δα := 0, Δα_vel := 0, Δβ := 0, Δβ_vel := 0
    X_vel := 0, Y_vel := 0, R_vel := 0, Alfa_vel := 0, Beta_vel := 0 }

/-- A default-constructed `Model` (accumulator and counter start at zero,
Model.h lines 203-204). -/
def initialModel : Model :=
  { cfg := defaultConfig, st := initialDynState
    SimulationTime := 0, SimulationCounter := 0 }

/-- Clamp one position/velocity pair to `[minv, maxv]`; when the clamp
fires the velocity is zeroed (inelastic stop, spec step 6). -/
def clampPosVel (pos vel minv maxv : ℚ) : ℚ × ℚ :=
  if pos < minv then (minv, 0)
  else if maxv < pos then (maxv, 0)
  else (pos, vel)

/-- Modelled from the spec: body of `Model::ApplyLimits` (Model.h line 259)
is in the missing Model.cpp.  Spec step 6: "clamp every position to its
configured [Min,Max]; when a clamp is applied, zero the corresponding
velocity (inelastic stop)".  The positions with configured limits are
X (rail), Y (cart) and R (line). -/
def ApplyLimits (cfg : ModelConfig) (s : DynState) : DynState :=
  let x := clampPosVel s.X s.X_vel cfg.RailLimitMin cfg.RailLimitMax
  let y := clampPosVel s.Y s.Y_vel cfg.CartLimitMin cfg.CartLimitMax
  let r := clampPosVel s.R s.R_vel cfg.LineLimitMin cfg.LineLimitMax
  { s with X := x.1, X_vel := x.2, Y := y.1, Y_vel := y.2,
           R := r.1, R_vel := r.2 }

/-- Snap a value below the dampening epsilon to exactly zero (spec step 7). -/
def snap (ε x : ℚ) : ℚ := if |x| < ε then 0 else x

/-- Modelled from the spec: body of `Model::DampenAllValues` (Model.h line
260) is in the missing Model.cpp.  Spec step 7: "snap any state value
(velocity, angle, angular velocity) below a small epsilon to exactly zero".
The epsilon constant lives in the missing Model.cpp, so it is a parameter
here.  Positions X, Y, R are not in the spec's list and are untouched. -/
def DampenAllValues (ε : ℚ) (s : DynState) : DynState :=
  { s with
    Alfa := snap ε s.Alfa, Beta := snap ε s.Beta
    Δα := snap ε s.Δα, Δβ := snap ε s.Δβ
    X_vel := snap ε s.X_vel, Y_vel := snap ε s.Y_vel, R_vel := snap ε s.R_vel
    Alfa_vel := snap ε s.Alfa_vel, Beta_vel := snap ε s.Beta_vel
    Δα_vel := snap ε s.Δα_vel, Δβ_vel := snap ε s.Δβ_vel }

/-- The variant dynamics (`PrepareBasicRelations` plus one of
`BasicLinearModel` / `NonLinearConstLine` / `NonLinearCompleteModel` /
`NonLinearOriginalModel`, Model.h lines 245-255, plus the Verlet
integration of the active axes, spec steps 1-5).  Their bodies are in the
missing Model.cpp and the spec leaves the exact equations as a
physics-reference dependency, so the embedding is parametric in this
function: it maps configuration, sub-step size, the three applied forces
and the current dynamic state to the integrated (pre-limit, pre-dampening)
dynamic state. -/
def Dyn : Type :=
  ModelConfig → ℚ → Force → Force → Force → DynState → DynState

/-- The spherical-pendulum payload projection used by `GetState` (spec:
PayloadX/Y/Z from Alfa, Beta, R, X, Y; exact formula is in the missing
Model.cpp), parametric for the same reason as `Dyn`. -/
def Geom : Type :=
  ℚ → ℚ → ℚ → ℚ → ℚ → ℚ × ℚ × ℚ

/-- One fixed sub-step (spec "Common per-sub-step algorithm"): the variant
dynamics, then `ApplyLimits`, then `DampenAllValues`. -/
def subStep (dyn : Dyn) (ε : ℚ) (cfg : ModelConfig) (dt : ℚ)
    (Frail Fcart Fwind : Force) (s : DynState) : DynState :=
  DampenAllValues ε (ApplyLimits cfg (dyn cfg dt Frail Fcart Fwind s))

/-- Number of sub-steps the accumulator loop of `UpdateFixed` runs when the
accumulator (after adding the elapsed time) holds `acc`: the loop
`while (SimulationTime >= fixedTime) { ...; SimulationTime -= fixedTime; }`
runs `⌊acc / fixedTime⌋` times (0 when that is negative).  For
`fixedTime ≤ 0` the C++ loop would not terminate once `acc ≥ fixedTime`;
the embedding is total and returns 0 there, and every theorem about the
loop assumes `0 < fixedTime`. -/
def numSubSteps (fixedTime acc : ℚ) : ℕ :=
  if 0 < fixedTime then (⌊acc / fixedTime⌋).toNat else 0

/-- Modelled from the spec: body of `Model::GetState` (Model.h line 235) is
in the missing Model.cpp.  Spec: pure read; copies the current Alfa, Beta,
X, Y, R and computes the payload coordinates from Alfa/Beta/R/X/Y through
the spherical projection `geom`. -/
def GetState (geom : Geom) (m : Model) : ModelState :=
  let p := geom m.st.Alfa m.st.Beta m.st.R m.st.X m.st.Y
  { Alfa := m.st.Alfa, Beta := m.st.Beta
    RailOffset := m.st.X, CartOffset := m.st.Y, LiftLine := m.st.R
    PayloadX := p.1, PayloadY := p.2.1, PayloadZ := p.2.2 }

/-- `Model::GetState` as a state transformer: the method is `const`
(Model.h line 235), so the model component of the result is the input
model unchanged. -/
def GetStateCall (geom : Geom) (m : Model) : Model × ModelState :=
  (m, GetState geom m)

/-- Modelled from the spec: body of `Model::UpdateFixed` (Model.h line 219)
is in the missing Model.cpp.  Spec: add `deltaTime` to the accumulator
`SimulationTime`; while the accumulator ≥ `fixedTime`, run one sub-step
with `dt = fixedTime` and subtract `fixedTime`; the remainder stays for
the next call.  This is the model component only. -/
def advanceModel (dyn : Dyn) (ε : ℚ) (fixedTime deltaTime : ℚ)
    (Frail Fcart Fwind : Force) (m : Model) : Model :=
  let acc := m.SimulationTime + deltaTime
  let n := numSubSteps fixedTime acc
  { cfg := m.cfg
    st := (subStep dyn ε m.cfg fixedTime Frail Fcart Fwind)^[n] m.st
    SimulationTime := acc - n * fixedTime
    SimulationCounter := m.SimulationCounter + n }

/-- `Model::UpdateFixed` (Model.h line 219): advance the model by the
accumulator loop and return the new model together with the resulting
`GetState()` snapshot. -/
def UpdateFixed (dyn : Dyn) (ε : ℚ) (geom : Geom) (fixedTime deltaTime : ℚ)
    (Frail Fcart Fwind : Force) (m : Model) : Model × ModelState :=
  (advanceModel dyn ε fixedTime deltaTime Frail Fcart Fwind m,
   GetState geom (advanceModel dyn ε fixedTime deltaTime Frail Fcart Fwind m))

/-- The three positions with configured limits are inside their limits. -/
def InLimits (cfg : ModelConfig) (s : DynState) : Prop :=
  cfg.RailLimitMin ≤ s.X ∧ s.X ≤ cfg.RailLimitMax ∧
  cfg.CartLimitMin ≤ s.Y ∧ s.Y ≤ cfg.CartLimitMax ∧
  cfg.LineLimitMin ≤ s.R ∧ s.R ≤ cfg.LineLimitMax

instance (cfg : ModelConfig) (s : DynState) : Decidable (InLimits cfg s) := by
  unfold InLimits; infer_instance

/-- Sane limit configuration (spec section 7: sane configuration is the
owner's documented responsibility): each Min ≤ Max, and the line minimum
is strictly positive. -/
def SaneLimits (cfg : ModelConfig) : Prop :=
  cfg.RailLimitMin ≤ cfg.RailLimitMax ∧
  cfg.CartLimitMin ≤ cfg.CartLimitMax ∧
  0 < cfg.LineLimitMin ∧ cfg.LineLimitMin ≤ cfg.LineLimitMax

instance (cfg : ModelConfig) : Decidable (SaneLimits cfg) := by
  unfold SaneLimits; infer_instance

/-- A trivial concrete instance of the variant dynamics (used to evaluate
the loop bookkeeping, which is independent of the dynamics). -/
def dyn0 : Dyn := fun _ _ _ _ _ s => s

/-- A trivial concrete payload projection. -/
def geom0 : Geom := fun _ _ _ _ _ => (0, 0, 0)

/-- One `UpdateFixed` call description: fixed step, elapsed time, forces. -/
structure Call where
  fixedTime : ℚ
  deltaTime : ℚ
  Frail : Force
  Fcart : Force
  Fwind : Force
deriving DecidableEq

/-- Run a sequence of `UpdateFixed` calls (model component). -/
def runCalls (dyn : Dyn) (ε : ℚ) (calls : List Call) (m : Model) : Model :=
  calls.foldl
    (fun acc c => advanceModel dyn ε c.fixedTime c.deltaTime c.Frail c.Fcart c.Fwind acc) m

/-- A model in the default configuration whose rail offset starts outside
the rail limits (the update entry points never check the starting state). -/
def outOfLimitsModel : Model :=
  { cfg := defaultConfig, st := { initialDynState with X := 1 }
    SimulationTime := 0, SimulationCounter := 0 }

/-! ## Supporting lemmas -/

theorem sign_of_pos {x : ℚ} (h : 0 < x) : sign x = 1 := by
  unfold sign; rw [if_pos h]

theorem sign_of_neg {x : ℚ} (h : x < 0) : sign x = -1 := by
  unfold sign; rw [if_neg (by linarith), if_pos h]

theorem sign_of_zero : sign 0 = 0 := rfl

theorem numSubSteps_of_pos (f x : ℚ) (hf : 0 < f) :
    numSubSteps f x = (⌊x/f⌋).toNat := by
  unfold numSubSteps; rw [if_pos hf]

/-- Unfolded form of `advanceModel`. -/
theorem advanceModel_eq (dyn : Dyn) (ε f d : ℚ) (F1 F2 F3 : Force) (m : Model) :
    advanceModel dyn ε f d F1 F2 F3 m =
      Model.mk m.cfg
        ((subStep dyn ε m.cfg f F1 F2 F3)^[numSubSteps f (m.SimulationTime + d)] m.st)
        (m.SimulationTime + d - (numSubSteps f (m.SimulationTime + d)) * f)
        (m.SimulationCounter + numSubSteps f (m.SimulationTime + d)) := rfl

/-- Faithfulness of the floor-based loop count, exit case: when the
accumulator stays below the fixed step, the while loop of `UpdateFixed`
runs no sub-step and only the accumulator changes. -/
theorem advanceModel_no_step (dyn : Dyn) (ε f d : ℚ) (F1 F2 F3 : Force)
    (m : Model) (hf : 0 < f) (hlt : m.SimulationTime + d < f) :
    advanceModel dyn ε f d F1 F2 F3 m
      = { m with SimulationTime := m.SimulationTime + d } := by
  have hn : numSubSteps f (m.SimulationTime + d) = 0 := by
    rw [numSubSteps_of_pos f _ hf]
    have : ⌊(m.SimulationTime + d)/f⌋ < 1 := by
      rw [Int.floor_lt]
      push_cast
      exact (div_lt_one hf).mpr hlt
    omega
  rw [advanceModel_eq, hn]
  simp

/-- Faithfulness of the floor-based loop count, iteration case: when the
accumulator reaches the fixed step, the while loop of `UpdateFixed` runs
one sub-step, subtracts `f` from the accumulator and continues. -/
theorem advanceModel_step (dyn : Dyn) (ε f d : ℚ) (F1 F2 F3 : Force)
    (m : Model) (hf : 0 < f) (hge : f ≤ m.SimulationTime + d) :
    advanceModel dyn ε f d F1 F2 F3 m
      = advanceModel dyn ε f (d - f) F1 F2 F3
          { m with st := subStep dyn ε m.cfg f F1 F2 F3 m.st
                   SimulationCounter := m.SimulationCounter + 1 } := by
  have hf' : f ≠ 0 := ne_of_gt hf
  have hsplit : (m.SimulationTime + d)/f = (m.SimulationTime + (d - f))/f + 1 := by
    field_simp
    ring
  have hnn : (0:ℤ) ≤ ⌊(m.SimulationTime + (d - f))/f⌋ := by
    apply Int.floor_nonneg.mpr
    apply div_nonneg _ hf.le
    linarith
  have hcnt : numSubSteps f (m.SimulationTime + d)
      = numSubSteps f (m.SimulationTime + (d - f)) + 1 := by
    rw [numSubSteps_of_pos f _ hf, numSubSteps_of_pos f _ hf,
      hsplit, Int.floor_add_one]
    omega
  rw [advanceModel_eq, advanceModel_eq]
  rw [Model.mk.injEq]
  refine ⟨rfl, ?_, ?_, ?_⟩
  · rw [hcnt, Function.iterate_succ_apply]
  · rw [hcnt]
    push_cast
    ring
  · rw [hcnt]
    push_cast
    ring

/-- Splitting the accumulator arithmetic: for `0 < f`, running the loop on
accumulator `a` and then on the remainder plus `f` runs the same total
number of sub-steps, and leaves the same remainder, as running it once on
`a + f`. -/
theorem floor_chain (f a : ℚ) (hf : 0 < f) :
    (⌊(a + f)/f⌋).toNat
        = (⌊a/f⌋).toNat + (⌊((a - (⌊a/f⌋).toNat * f) + f)/f⌋).toNat ∧
    (a + f) - ((⌊(a + f)/f⌋).toNat : ℚ) * f
        = ((a - (⌊a/f⌋).toNat * f) + f)
          - ((⌊((a - (⌊a/f⌋).toNat * f) + f)/f⌋).toNat : ℚ) * f := by
  have hf' : f ≠ 0 := ne_of_gt hf
  have hdiv : (a + f)/f = a/f + 1 := by field_simp
  rcases le_or_lt 0 a with ha | ha
  · have h0 : (0:ℤ) ≤ ⌊a/f⌋ := Int.floor_nonneg.mpr (div_nonneg ha hf.le)
    have hcoe : (((⌊a/f⌋).toNat : ℚ)) = ((⌊a/f⌋ : ℤ) : ℚ) := by
      exact_mod_cast congrArg (fun z : ℤ => (z : ℚ)) (Int.toNat_of_nonneg h0)
    have hle : ((⌊a/f⌋ : ℤ) : ℚ) ≤ a/f := Int.floor_le (a/f)
    have hlt : a/f < ((⌊a/f⌋ : ℤ) : ℚ) + 1 := Int.lt_floor_add_one (a/f)
    have hr0 : 0 ≤ a - ((⌊a/f⌋).toNat : ℚ) * f := by
      rw [hcoe]
      have : ((⌊a/f⌋ : ℤ) : ℚ) * f ≤ a := by
        calc ((⌊a/f⌋ : ℤ) : ℚ) * f ≤ (a/f) * f :=
              mul_le_mul_of_nonneg_right hle hf.le
          _ = a := by field_simp
      linarith
    have hrf : a - ((⌊a/f⌋).toNat : ℚ) * f < f := by
      rw [hcoe]
      have : a < (((⌊a/f⌋ : ℤ) : ℚ) + 1) * f := by
        calc a = (a/f) * f := by field_simp
          _ < (((⌊a/f⌋ : ℤ) : ℚ) + 1) * f := mul_lt_mul_of_pos_right hlt hf
      linarith [this]
    have hdiv2 : ((a - ((⌊a/f⌋).toNat : ℚ) * f) + f)/f
        = (a - ((⌊a/f⌋).toNat : ℚ) * f)/f + 1 := by field_simp
    have hfr : ⌊((a - ((⌊a/f⌋).toNat : ℚ) * f) + f)/f⌋ = 1 := by
      rw [hdiv2, Int.floor_add_one, Int.floor_eq_zero_iff.mpr]
      · norm_num
      · constructor
        · exact div_nonneg hr0 hf.le
        · exact (div_lt_one hf).mpr hrf
    have hfa : ⌊(a+f)/f⌋ = ⌊a/f⌋ + 1 := by rw [hdiv, Int.floor_add_one]
    constructor
    · rw [hfa, hfr]; omega
    · rw [hfa, hfr]
      have e0 : (⌊a/f⌋ + 1).toNat = (⌊a/f⌋).toNat + 1 := by omega
      have e1 : ((⌊a/f⌋ + 1).toNat : ℚ) = ((⌊a/f⌋).toNat : ℚ) + 1 := by
        exact_mod_cast e0
      have e2 : (((1:ℤ).toNat : ℕ) : ℚ) = 1 := by norm_num
      rw [e1, e2]
      ring
  · have h0 : ⌊a/f⌋ < 0 := by
      rw [Int.floor_lt]
      push_cast
      exact div_neg_of_neg_of_pos ha hf
    have hn : (⌊a/f⌋).toNat = 0 := Int.toNat_eq_zero.mpr h0.le
    simp [hn]

/-- Composing a call of elapsed time `d` with a call of elapsed time `f`
(the fixed step) is the same as one call of elapsed time `d + f`. -/
theorem advanceModel_add_fixed (dyn : Dyn) (ε f d : ℚ) (F1 F2 F3 : Force)
    (m : Model) (hf : 0 < f) :
    advanceModel dyn ε f f F1 F2 F3 (advanceModel dyn ε f d F1 F2 F3 m)
      = advanceModel dyn ε f (d + f) F1 F2 F3 m := by
  have hns : ∀ x : ℚ, numSubSteps f x = (⌊x/f⌋).toNat := fun x =>
    numSubSteps_of_pos f x hf
  obtain ⟨hcnt, hrem⟩ := floor_chain f (m.SimulationTime + d) hf
  simp only [advanceModel_eq, hns]
  rw [Model.mk.injEq]
  have hassoc : m.SimulationTime + (d + f) = m.SimulationTime + d + f := by ring
  refine ⟨rfl, ?_, ?_, ?_⟩
  · rw [hassoc, hcnt, ← Function.iterate_add_apply]
    rw [Nat.add_comm]
  · rw [hassoc, hcnt]
    push_cast
    linarith [hrem]
  · rw [hassoc, hcnt]
    push_cast
    ring

theorem clampPosVel_mem {minv maxv : ℚ} (p v : ℚ) (h : minv ≤ maxv) :
    minv ≤ (clampPosVel p v minv maxv).1 ∧
    (clampPosVel p v minv maxv).1 ≤ maxv := by
  unfold clampPosVel
  split_ifs with h1 h2
  · exact ⟨le_refl _, h⟩
  · exact ⟨h, le_refl _⟩
  · exact ⟨le_of_not_lt h1, le_of_not_lt h2⟩

/-- `ApplyLimits` establishes the limit invariant from any state, for sane
limit configurations. -/
theorem applyLimits_inLimits {cfg : ModelConfig} (hsane : SaneLimits cfg)
    (s : DynState) : InLimits cfg (ApplyLimits cfg s) := by
  obtain ⟨h1, h2, _h3, h4⟩ := hsane
  obtain ⟨hx1, hx2⟩ := clampPosVel_mem s.X s.X_vel h1
  obtain ⟨hy1, hy2⟩ := clampPosVel_mem s.Y s.Y_vel h2
  obtain ⟨hr1, hr2⟩ := clampPosVel_mem s.R s.R_vel h4
  exact ⟨hx1, hx2, hy1, hy2, hr1, hr2⟩

/-- A sub-step ends with `ApplyLimits` (then dampening, which does not
touch X, Y, R), so it establishes the limit invariant from any state. -/
theorem subStep_inLimits (dyn : Dyn) (ε : ℚ) {cfg : ModelConfig}
    (hsane : SaneLimits cfg) (dt : ℚ) (F1 F2 F3 : Force) (s : DynState) :
    InLimits cfg (subStep dyn ε cfg dt F1 F2 F3 s) :=
  applyLimits_inLimits hsane (dyn cfg dt F1 F2 F3 s)

theorem iterate_subStep_inLimits (dyn : Dyn) (ε : ℚ) {cfg : ModelConfig}
    (hsane : SaneLimits cfg) (dt : ℚ) (F1 F2 F3 : Force) (n : ℕ)
    {s : DynState} (h0 : InLimits cfg s) :
    InLimits cfg ((subStep dyn ε cfg dt F1 F2 F3)^[n] s) := by
  cases n with
  | zero => exact h0
  | succ k =>
    rw [Function.iterate_succ_apply']
    exact subStep_inLimits dyn ε hsane dt F1 F2 F3 _

/-- `UpdateFixed` never mutates the configuration (spec: configuration
fields are never mutated internally). -/
theorem advanceModel_cfg (dyn : Dyn) (ε f d : ℚ) (F1 F2 F3 : Force)
    (m : Model) : (advanceModel dyn ε f d F1 F2 F3 m).cfg = m.cfg := rfl

theorem advanceModel_inLimits (dyn : Dyn) (ε f d : ℚ) (F1 F2 F3 : Force)
    {m : Model} (hsane : SaneLimits m.cfg) (h0 : InLimits m.cfg m.st) :
    InLimits m.cfg (advanceModel dyn ε f d F1 F2 F3 m).st :=
  iterate_subStep_inLimits dyn ε hsane f F1 F2 F3 _ h0

theorem runCalls_cfg (dyn : Dyn) (ε : ℚ) (calls : List Call) (m : Model) :
    (runCalls dyn ε calls m).cfg = m.cfg := by
  induction calls generalizing m with
  | nil => rfl
  | cons c rest ih =>
    show (runCalls dyn ε rest _).cfg = m.cfg
    rw [ih]
    rfl

/-- The limit invariant is preserved by any sequence of `UpdateFixed`
calls, for sane limits and an in-limits starting state. -/
theorem runCalls_inLimits (dyn : Dyn) (ε : ℚ) (calls : List Call)
    {m : Model} (hsane : SaneLimits m.cfg) (h0 : InLimits m.cfg m.st) :
    InLimits m.cfg (runCalls dyn ε calls m).st := by
  induction calls generalizing m with
  | nil => exact h0
  | cons c rest ih =>
    show InLimits m.cfg (runCalls dyn ε rest
      (advanceModel dyn ε c.fixedTime c.deltaTime c.Frail c.Fcart c.Fwind m)).st
    have hc := advanceModel_cfg dyn ε c.fixedTime c.deltaTime c.Frail c.Fcart c.Fwind m
    have := ih (m := advanceModel dyn ε c.fixedTime c.deltaTime c.Frail c.Fcart c.Fwind m)
      (by rw [hc]; exact hsane)
      (by rw [hc]
          exact advanceModel_inLimits dyn ε c.fixedTime c.deltaTime
            c.Frail c.Fcart c.Fwind hsane h0)
    rwa [hc] at this

/-! ## Claim theorems -/

/-- C1 (counterexample): the claim quantifies over every starting state and
every `UpdateFixed` call; a call whose elapsed time leaves the accumulator
below the fixed step runs zero sub-steps, so a starting rail offset of 1
(outside the default rail limits [-0.3, 0.3]) is returned unchanged:
RailOffset of the returned state is not ≤ RailLimitMax. -/
theorem updateFixed_limits_counterexample :
    ((UpdateFixed dyn0 0 geom0 (1/100) (1/200) ⟨0⟩ ⟨0⟩ ⟨0⟩
        outOfLimitsModel).2.RailOffset = 1) ∧
    outOfLimitsModel.cfg.RailLimitMax = 3/10 ∧
    ¬ ((UpdateFixed dyn0 0 geom0 (1/100) (1/200) ⟨0⟩ ⟨0⟩ ⟨0⟩
        outOfLimitsModel).2.RailOffset ≤ outOfLimitsModel.cfg.RailLimitMax) := by
  have hns : ∀ x : ℚ, numSubSteps (1/100) x = (⌊x/(1/100)⌋).toNat := fun x =>
    numSubSteps_of_pos (1/100) x (by norm_num)
  have hfl : ⌊((0:ℚ) + 1/200)/(1/100)⌋ = 0 := by norm_num [Int.floor_eq_iff]
  simp only [UpdateFixed, advanceModel_eq, GetState, hns,
    outOfLimitsModel, initialDynState, defaultConfig, hfl]
  norm_num

/-- C1 (amended): for every dynamics variant and payload projection, every
sane limit configuration (each Min ≤ Max, LineLimitMin > 0), every starting
state whose positions already lie within the limits, and every sequence of
`UpdateFixed` calls with arbitrary forces, the state after the sequence has
RailOffset in [RailLimitMin, RailLimitMax], CartOffset in
[CartLimitMin, CartLimitMax] and LiftLine in [LineLimitMin, LineLimitMax];
in particular the lift-line length is strictly positive. -/
theorem updateFixed_limit_invariant (dyn : Dyn) (ε : ℚ) (geom : Geom)
    (calls : List Call) (m : Model)
    (hsane : SaneLimits m.cfg) (h0 : InLimits m.cfg m.st) :
    m.cfg.RailLimitMin ≤ (GetState geom (runCalls dyn ε calls m)).RailOffset ∧
    (GetState geom (runCalls dyn ε calls m)).RailOffset ≤ m.cfg.RailLimitMax ∧
    m.cfg.CartLimitMin ≤ (GetState geom (runCalls dyn ε calls m)).CartOffset ∧
    (GetState geom (runCalls dyn ε calls m)).CartOffset ≤ m.cfg.CartLimitMax ∧
    m.cfg.LineLimitMin ≤ (GetState geom (runCalls dyn ε calls m)).LiftLine ∧
    (GetState geom (runCalls dyn ε calls m)).LiftLine ≤ m.cfg.LineLimitMax ∧
    0 < (GetState geom (runCalls dyn ε calls m)).LiftLine := by
  obtain ⟨h1, h2, h3, h4, h5, h6⟩ := runCalls_inLimits dyn ε calls hsane h0
  exact ⟨h1, h2, h3, h4, h5, h6, lt_of_lt_of_le hsane.2.2.1 h5⟩

/-- C1 (witness): the amended invariant evaluated on the default model and
one concrete `UpdateFixed(0.01, 0.01, 0, 0, 0)` call. -/
theorem updateFixed_limit_invariant_witness :
    SaneLimits initialModel.cfg ∧ InLimits initialModel.cfg initialModel.st ∧
    (initialModel.cfg.RailLimitMin ≤
        (GetState geom0 (runCalls dyn0 0
          [Call.mk (1/100) (1/100) ⟨0⟩ ⟨0⟩ ⟨0⟩] initialModel)).RailOffset ∧
     (GetState geom0 (runCalls dyn0 0
          [Call.mk (1/100) (1/100) ⟨0⟩ ⟨0⟩ ⟨0⟩] initialModel)).RailOffset ≤
        initialModel.cfg.RailLimitMax ∧
     initialModel.cfg.CartLimitMin ≤
        (GetState geom0 (runCalls dyn0 0
          [Call.mk (1/100) (1/100) ⟨0⟩ ⟨0⟩ ⟨0⟩] initialModel)).CartOffset ∧
     (GetState geom0 (runCalls dyn0 0
          [Call.mk (1/100) (1/100) ⟨0⟩ ⟨0⟩ ⟨0⟩] initialModel)).CartOffset ≤
        initialModel.cfg.CartLimitMax ∧
     initialModel.cfg.LineLimitMin ≤
        (GetState geom0 (runCalls dyn0 0
          [Call.mk (1/100) (1/100) ⟨0⟩ ⟨0⟩ ⟨0⟩] initialModel)).LiftLine ∧
     (GetState geom0 (runCalls dyn0 0
          [Call.mk (1/100) (1/100) ⟨0⟩ ⟨0⟩ ⟨0⟩] initialModel)).LiftLine ≤
        initialModel.cfg.LineLimitMax ∧
     0 < (GetState geom0 (runCalls dyn0 0
          [Call.mk (1/100) (1/100) ⟨0⟩ ⟨0⟩ ⟨0⟩] initialModel)).LiftLine) := by
  have hs : SaneLimits initialModel.cfg := by
    show SaneLimits defaultConfig
    unfold SaneLimits defaultConfig
    norm_num
  have h0 : InLimits initialModel.cfg initialModel.st := by
    show InLimits defaultConfig initialDynState
    unfold InLimits defaultConfig initialDynState
    norm_num
  exact ⟨hs, h0, updateFixed_limit_invariant dyn0 0 geom0
    [Call.mk (1/100) (1/100) ⟨0⟩ ⟨0⟩ ⟨0⟩] initialModel hs h0⟩

/-- C2: for every dynamics variant, payload projection, starting state and
force `F`, one `UpdateFixed(0.01, 0.03, F, F, F)` call returns exactly the
same model and the same `ModelState` snapshot as three successive
`UpdateFixed(0.01, 0.01, F, F, F)` calls (exact rational arithmetic, hence
in particular within floating tolerance). -/
theorem updateFixed_substep_determinism (dyn : Dyn) (ε : ℚ) (geom : Geom)
    (F : Force) (m : Model) :
    UpdateFixed dyn ε geom (1/100) (3/100) F F F m
      = UpdateFixed dyn ε geom (1/100) (1/100) F F F
          ((UpdateFixed dyn ε geom (1/100) (1/100) F F F
            ((UpdateFixed dyn ε geom (1/100) (1/100) F F F m).1)).1) := by
  have hf : (0:ℚ) < 1/100 := by norm_num
  have h12 : advanceModel dyn ε (1/100) (1/100) F F F
      (advanceModel dyn ε (1/100) (1/100) F F F m)
      = advanceModel dyn ε (1/100) (2/100) F F F m := by
    rw [advanceModel_add_fixed dyn ε (1/100) (1/100) F F F m hf]
    norm_num
  have h123 : advanceModel dyn ε (1/100) (1/100) F F F
      (advanceModel dyn ε (1/100) (2/100) F F F m)
      = advanceModel dyn ε (1/100) (3/100) F F F m := by
    rw [advanceModel_add_fixed dyn ε (1/100) (2/100) F F F m hf]
    norm_num
  unfold UpdateFixed
  dsimp only
  rw [h12, h123]

/-- C3: a `Component` at rest (zero velocity) to which a force with
magnitude not exceeding the static threshold `Ts` is applied has net force
and net acceleration exactly zero after `ApplyForceNonLinear`. -/
theorem applyForceNonLinear_stiction (c : Component) (applied : Force)
    (g : Accel) (T Ts : ℚ) (hv : c.Vel = 0) (hF : |applied.Value| ≤ Ts) :
    (c.ApplyForceNonLinear applied g T Ts).Fnet = ⟨0⟩ ∧
    (c.ApplyForceNonLinear applied g T Ts).NetAcc = ⟨0⟩ := by
  unfold Component.ApplyForceNonLinear
  rw [if_pos ⟨hv, hF⟩]
  exact ⟨rfl, rfl⟩

/-- C3 (witness): the default component at rest with applied force 0.5 N
and static threshold 1. -/
theorem applyForceNonLinear_stiction_witness :
    (Component.mk0.ApplyForceNonLinear ⟨1/2⟩ ⟨981/100⟩ 2 1).Fnet = ⟨0⟩ ∧
    (Component.mk0.ApplyForceNonLinear ⟨1/2⟩ ⟨981/100⟩ 2 1).NetAcc = ⟨0⟩ :=
  applyForceNonLinear_stiction Component.mk0 ⟨1/2⟩ ⟨981/100⟩ 2 1 rfl
    (abs_le.mpr ⟨by norm_num, by norm_num⟩)

/-- C4 (counterexample): the number of sub-steps of an `UpdateFixed` call
is not `⌊elapsedTime/fixedStep⌋` in general, because the remainder of the
previous call participates: starting from the freshly constructed model,
two successive `UpdateFixed(0.01, 0.015, 0, 0, 0)` calls run 1 then 2
sub-steps (counter delta 2 on the second call), while
`⌊0.015/0.01⌋ = 1`. -/
theorem updateFixed_substep_count_counterexample :
    ((UpdateFixed dyn0 0 geom0 (1/100) (3/200) ⟨0⟩ ⟨0⟩ ⟨0⟩
        (UpdateFixed dyn0 0 geom0 (1/100) (3/200) ⟨0⟩ ⟨0⟩ ⟨0⟩
          initialModel).1).1.SimulationCounter
      - (UpdateFixed dyn0 0 geom0 (1/100) (3/200) ⟨0⟩ ⟨0⟩ ⟨0⟩
          initialModel).1.SimulationCounter
      = 2) ∧ (⌊(3/200 : ℚ)/(1/100)⌋ = 1) := by
  have hns : ∀ x : ℚ, numSubSteps (1/100) x = (⌊x/(1/100)⌋).toNat := fun x =>
    numSubSteps_of_pos (1/100) x (by norm_num)
  simp only [UpdateFixed, advanceModel_eq, hns, initialModel]
  norm_num [Int.floor_eq_iff]

/-- C4 (amended): each `UpdateFixed(fixedStep, elapsedTime, ...)` call with
`fixedStep > 0` adds `elapsedTime` to the internal accumulator and then
runs exactly `toNat ⌊(accumulator + elapsedTime)/fixedStep⌋` sub-steps of
duration `fixedStep`, subtracting `fixedStep` from the accumulator for
each and preserving the remainder for the next call; the embedding of the
call is a total function, so the call terminates. -/
theorem updateFixed_substep_count (dyn : Dyn) (ε : ℚ) (geom : Geom)
    (f d : ℚ) (F1 F2 F3 : Force) (m : Model) (hf : 0 < f) :
    (UpdateFixed dyn ε geom f d F1 F2 F3 m).1.SimulationCounter
        = m.SimulationCounter + ((⌊(m.SimulationTime + d)/f⌋).toNat : ℤ) ∧
    (UpdateFixed dyn ε geom f d F1 F2 F3 m).1.SimulationTime
        = (m.SimulationTime + d)
          - ((⌊(m.SimulationTime + d)/f⌋).toNat : ℚ) * f ∧
    (UpdateFixed dyn ε geom f d F1 F2 F3 m).1.st
        = (subStep dyn ε m.cfg f F1 F2 F3)^[(⌊(m.SimulationTime + d)/f⌋).toNat]
            m.st ∧
    (UpdateFixed dyn ε geom f d F1 F2 F3 m).1.cfg = m.cfg := by
  have hns : numSubSteps f (m.SimulationTime + d)
      = (⌊(m.SimulationTime + d)/f⌋).toNat := numSubSteps_of_pos f _ hf
  unfold UpdateFixed
  dsimp only
  rw [advanceModel_eq]
  dsimp only
  rw [hns]
  exact ⟨rfl, rfl, rfl, rfl⟩

/-- C4 (witness): the amended sub-step count evaluated on the fresh model
with fixedStep 0.01 and elapsedTime 0.015. -/
theorem updateFixed_substep_count_witness :
    (0:ℚ) < 1/100 ∧
    ((UpdateFixed dyn0 0 geom0 (1/100) (3/200) ⟨0⟩ ⟨0⟩ ⟨0⟩
        initialModel).1.SimulationCounter
      = initialModel.SimulationCounter
        + ((⌊(initialModel.SimulationTime + 3/200)/(1/100)⌋).toNat : ℤ)) :=
  ⟨by norm_num,
   (updateFixed_substep_count dyn0 0 geom0 (1/100) (3/200) ⟨0⟩ ⟨0⟩ ⟨0⟩
     initialModel (by norm_num)).1⟩

/-- C5: `Component::Update` is a no-op when `Const` is set; otherwise it
stores new velocity = old velocity + acceleration×dt and new position =
old position + (old velocity + new velocity)×dt×0.5, with the
VelMax/AccMax clamps applied when those limits are non-zero (and hence,
with both limits disabled, it is exactly the header's `integrate_velocity`
and `integrate_pos`). -/
theorem component_update_spec (c : Component) (a : Accel) (dt : ℚ) :
    (c.Const = true → c.Update a dt = c) ∧
    (c.Const = false →
      (c.Update a dt).Vel = clampMag c.VelMax
          (c.Vel + clampMag c.AccMax a.Value * dt) ∧
      (c.Update a dt).Pos =
        c.Pos + (c.Vel + (c.Update a dt).Vel) * dt * (1/2)) ∧
    (c.Const = false → c.VelMax = 0 → c.AccMax = 0 →
      (c.Update a dt).Vel = integrate_velocity c.Vel a dt ∧
      (c.Update a dt).Pos = integrate_pos c.Pos c.Vel a dt) := by
  by_cases h : c.Const = true
  · refine ⟨fun _ => ?_, fun hf => ?_, fun hf => ?_⟩
    · unfold Component.Update; rw [if_pos h]
    · rw [h] at hf; exact absurd hf (by simp)
    · rw [h] at hf; exact absurd hf (by simp)
  · have hupd : c.Update a dt =
      { c with
        Acc := ⟨clampMag c.AccMax a.Value⟩
        Vel := clampMag c.VelMax
          (integrate_velocity c.Vel ⟨clampMag c.AccMax a.Value⟩ dt)
        Pos := c.Pos +
          (c.Vel + clampMag c.VelMax
            (integrate_velocity c.Vel ⟨clampMag c.AccMax a.Value⟩ dt))
          * dt * (1/2) } := by
      unfold Component.Update; rw [if_neg h]
    have hcl : ∀ y : ℚ, clampMag 0 y = y := fun y => by simp [clampMag]
    refine ⟨fun ht => absurd ht h, fun _ => ?_, fun _ hv ha => ?_⟩
    · rw [hupd]; exact ⟨rfl, rfl⟩
    · rw [hupd]
      constructor
      · show clampMag c.VelMax
            (integrate_velocity c.Vel ⟨clampMag c.AccMax a.Value⟩ dt)
            = integrate_velocity c.Vel a dt
        rw [hv, ha, hcl, hcl]
      · show c.Pos +
            (c.Vel + clampMag c.VelMax
              (integrate_velocity c.Vel ⟨clampMag c.AccMax a.Value⟩ dt))
            * dt * (1/2)
            = integrate_pos c.Pos c.Vel a dt
        rw [hv, ha, hcl, hcl]
        rfl

/-- C5 (witness): the default component (Const = false, limits disabled)
updated with acceleration 1 over dt = 1 follows the header integrators. -/
theorem component_update_spec_witness :
    (Component.mk0.Update ⟨1⟩ 1).Vel = integrate_velocity 0 ⟨1⟩ 1 ∧
    (Component.mk0.Update ⟨1⟩ 1).Pos = integrate_pos 0 0 ⟨1⟩ 1 :=
  (component_update_spec Component.mk0 ⟨1⟩ 1).2.2 rfl rfl rfl

/-- C6: `ClampForceByPosLimits` returns a zero force when Pos equals
LimitMin and the force points further negative, or Pos equals LimitMax and
the force points further positive, and returns the force unchanged in
every other case. -/
theorem clampForceByPosLimits_spec (c : Component) (f : Force) :
    (c.Pos = c.LimitMin ∧ f.Value < 0 → c.ClampForceByPosLimits f = ⟨0⟩) ∧
    (c.Pos = c.LimitMax ∧ 0 < f.Value → c.ClampForceByPosLimits f = ⟨0⟩) ∧
    (¬(c.Pos = c.LimitMin ∧ f.Value < 0) →
     ¬(c.Pos = c.LimitMax ∧ 0 < f.Value) →
      c.ClampForceByPosLimits f = f) := by
  unfold Component.ClampForceByPosLimits
  refine ⟨fun h => by rw [if_pos h], fun h => ?_, fun h1 h2 => ?_⟩
  · by_cases h1 : c.Pos = c.LimitMin ∧ f.Value < 0
    · rw [if_pos h1]
    · rw [if_neg h1, if_pos h]
  · rw [if_neg h1, if_neg h2]

/-- C6 (witness): the default component sits at Pos = LimitMin = 0, so a
force of -1 N is clamped to zero. -/
theorem clampForceByPosLimits_spec_witness :
    Component.mk0.ClampForceByPosLimits ⟨-1⟩ = ⟨0⟩ :=
  (clampForceByPosLimits_spec Component.mk0 ⟨-1⟩).1 ⟨rfl, by norm_num⟩

/-- C7: `Component::Reset` zeroes exactly the dynamic fields Pos, Vel, Acc,
Fnet, NetAcc and leaves the configuration fields (Mass, LimitMin/LimitMax,
VelMax/AccMax, CoeffStatic, CoeffKinetic, Const) unchanged. -/
theorem component_reset_spec (c : Component) :
    (c.Reset).Pos = 0 ∧ (c.Reset).Vel = 0 ∧ (c.Reset).Acc = ⟨0⟩ ∧
    (c.Reset).Fnet = ⟨0⟩ ∧ (c.Reset).NetAcc = ⟨0⟩ ∧
    (c.Reset).Mass = c.Mass ∧ (c.Reset).LimitMin = c.LimitMin ∧
    (c.Reset).LimitMax = c.LimitMax ∧ (c.Reset).VelMax = c.VelMax ∧
    (c.Reset).AccMax = c.AccMax ∧ (c.Reset).CoeffStatic = c.CoeffStatic ∧
    (c.Reset).CoeffKinetic = c.CoeffKinetic ∧ (c.Reset).Const = c.Const :=
  ⟨rfl, rfl, rfl, rfl, rfl, rfl, rfl, rfl, rfl, rfl, rfl, rfl, rfl⟩

/-- C8: `GetState` is side-effect-free (the model component of the call is
the unchanged input model), idempotent (a second call on the resulting
model yields an equal `ModelState`), and its fields are computed from the
current Alfa/Beta/R/X/Y. -/
theorem getState_pure (geom : Geom) (m : Model) :
    (GetStateCall geom m).1 = m ∧
    (GetStateCall geom m).2 = (GetStateCall geom (GetStateCall geom m).1).2 ∧
    (GetState geom m).Alfa = m.st.Alfa ∧ (GetState geom m).Beta = m.st.Beta ∧
    (GetState geom m).RailOffset = m.st.X ∧
    (GetState geom m).CartOffset = m.st.Y ∧
    (GetState geom m).LiftLine = m.st.R :=
  ⟨rfl, rfl, rfl, rfl, rfl, rfl, rfl⟩

/-- C9: `Mass * Accel` and `Accel * Mass` are the Force with value
`m.Value * a.Value`, and `Force / Mass` is the Accel with value
`F.Value / m.Value` (Model.h lines 61-64). -/
theorem mass_accel_force_arithmetic (m : Mass) (a : Accel) (F : Force) :
    (m * a).Value = m.Value * a.Value ∧
    (a * m).Value = m.Value * a.Value ∧
    (F / m).Value = F.Value / m.Value :=
  ⟨rfl, rfl, rfl⟩

/-- C10: `sign` returns only -1, 0 or +1, is zero exactly on zero, is odd,
and the `Unit` overload agrees with `sign` on the wrapped value. -/
theorem sign_spec (x : ℚ) :
    (sign x = -1 ∨ sign x = 0 ∨ sign x = 1) ∧
    (sign x = 0 ↔ x = 0) ∧
    sign (-x) = - sign x ∧
    (∀ (T : Type) (u : Unit T), u.sign = sign u.Value) := by
  have hU : ∀ (T : Type) (u : Unit T), u.sign = sign u.Value := fun T u => rfl
  rcases lt_trichotomy x 0 with h | h | h
  · refine ⟨Or.inl (sign_of_neg h), ?_, ?_, hU⟩
    · rw [sign_of_neg h]
      constructor
      · intro hh; norm_num at hh
      · intro hh; exact absurd hh (ne_of_lt h)
    · rw [sign_of_pos (neg_pos.mpr h), sign_of_neg h]; norm_num
  · subst h
    refine ⟨Or.inr (Or.inl sign_of_zero), ?_, ?_, hU⟩
    · rw [sign_of_zero]
    · rw [neg_zero, sign_of_zero, neg_zero]
  · refine ⟨Or.inr (Or.inr (sign_of_pos h)), ?_, ?_, hU⟩
    · rw [sign_of_pos h]
      constructor
      · intro hh; norm_num at hh
      · intro hh; exact absurd hh (ne_of_gt h)
    · rw [sign_of_neg (neg_neg_of_pos h), sign_of_pos h]

end crane3d
